import Mathlib

/-!
# Verification of the WeibullFitPro numeric core

Shallow embedding of the numeric kernel of the `weibullfitpro` repository:
`utils/weibull_functions.py` (distribution kernel, domain truncation, curve
generation, point fitting), `utils/export.py` (curve export), and
`components/mle_fitting.py` (negative log-likelihood and MLE fitting).

Real-valued (`ℝ`) semantics are used for the floating-point computations.
External SciPy routines (`curve_fit`, `minimize`) and NumPy's `percentile`
are modelled as abstract oracles passed in as parameters, mirroring exactly
the arguments the source passes to them and the way their results and
exceptions are consumed.
-/

noncomputable section

open Real

/-! ## Distribution kernel (utils/weibull_functions.py, lines 5-15) -/

/-- Source `weibull_pdf(x, shape, scale)`:
`(shape / scale) * (x / scale)**(shape - 1) * np.exp(-(x / scale)**shape)`. -/
def weibull_pdf (x shape scale : ℝ) : ℝ :=
  (shape / scale) * (x / scale) ^ (shape - 1) * Real.exp (-(x / scale) ^ shape)

/-- Source `weibull_cdf(x, shape, scale)`: `1 - np.exp(-(x / scale)**shape)`. -/
def weibull_cdf (x shape scale : ℝ) : ℝ :=
  1 - Real.exp (-(x / scale) ^ shape)

/-- Source `weibull_hazard(x, shape, scale)`: `(shape / scale) * (x / scale)**(shape - 1)`. -/
def weibull_hazard (x shape scale : ℝ) : ℝ :=
  (shape / scale) * (x / scale) ^ (shape - 1)

/-! ## Domain truncation (utils/weibull_functions.py, lines 38-61)

The PDF truncation point is a `while x_right - x_left > 0.01` bisection.
We embed one loop iteration as `bisectStep`, and the loop as `bisectIter`,
a fuel-indexed iteration whose step is guarded by the loop condition, so
that once the condition fails further fuel leaves the state unchanged
(`bisectIter_frozen`).  The loop result is `bisectIter` applied with enough
fuel (`pdfBisectFuel`) for the condition to have failed, which by
`bisectIter_frozen` coincides with the limit of the source's while loop. -/

/-- Curve type selector of `generate_weibull_curve` (the source compares
lowercased strings; any string other than `cdf`/`hazard` selects the PDF
branch, and callers only pass these three). -/
inductive CurveType
  | pdf
  | cdf
  | hazard
deriving DecidableEq

/-- One iteration body of the PDF-truncation bisection:
`x_mid = (x_left + x_right) / 2`; if `weibull_pdf(x_mid) > 0.0001` then
`x_left = x_mid` else `x_right = x_mid`. -/
def bisectStep (shape scale : ℝ) (p : ℝ × ℝ) : ℝ × ℝ :=
  if 0.0001 < weibull_pdf ((p.1 + p.2) / 2) shape scale then ((p.1 + p.2) / 2, p.2)
  else (p.1, (p.1 + p.2) / 2)

/-- The bisection loop `while x_right - x_left > 0.01`, indexed by fuel.
The loop condition guards each step, so surplus fuel is harmless. -/
def bisectIter (shape scale : ℝ) : ℕ → ℝ × ℝ → ℝ × ℝ
  | 0, p => p
  | n + 1, p => if 0.01 < p.2 - p.1 then bisectIter shape scale n (bisectStep shape scale p) else p

/-- Fuel sufficient for the bisection over `[0, 10*scale]` to reach width
`≤ 0.01`: the width halves each effective step, and `2 ^ ⌈1000*scale⌉ ≥
1000*scale`, so `10*scale / 2 ^ fuel ≤ 0.01`. -/
def pdfBisectFuel (scale : ℝ) : ℕ := Nat.ceil (1000 * scale)

/-- Result of the source's PDF-truncation while loop: the final `x_right`. -/
def pdfTruncation (shape scale : ℝ) : ℝ :=
  (bisectIter shape scale (pdfBisectFuel scale) (0, 10 * scale)).2

/-- Source `find_truncation_point(shape, scale)` (closure over `curve_type` inside
`generate_weibull_curve`): closed form for CDF, `scale * 3` for hazard,
bisection for PDF. -/
def find_truncation_point (shape scale : ℝ) (curve_type : CurveType) : ℝ :=
  match curve_type with
  | .cdf => scale * (-Real.log (1 - 0.9999)) ^ ((1 : ℝ) / shape)
  | .hazard => scale * 3
  | .pdf => pdfTruncation shape scale

/-! ## Curve generation (utils/weibull_functions.py, lines 63-72) -/

/-- NumPy `np.linspace(a, b, n)`: `n` evenly spaced samples from `a` to `b`
inclusive (for `n ≥ 2`, step `(b - a) / (n - 1)`). -/
def linspace (a b : ℝ) (n : ℕ) : List ℝ :=
  (List.range n).map (fun i : ℕ => a + (b - a) * (i : ℝ) / ((n : ℝ) - 1))

/-- The kernel function selected by the `if/elif/else` on `curve_type` at
the end of `generate_weibull_curve`. -/
def kernelFun (curve_type : CurveType) (shape scale : ℝ) : ℝ → ℝ :=
  match curve_type with
  | .pdf => fun t => weibull_pdf t shape scale
  | .cdf => fun t => weibull_cdf t shape scale
  | .hazard => fun t => weibull_hazard t shape scale

/-- Source `generate_weibull_curve(shape, scale, num_points, curve_type)`: computes
`x_max` via `find_truncation_point`, then returns
`(np.linspace(0, x_max, num_points), y)` with `y` the matching kernel
function applied elementwise. -/
def generate_weibull_curve (shape scale : ℝ) (num_points : ℕ) (curve_type : CurveType) :
    List ℝ × List ℝ :=
  let x_max := find_truncation_point shape scale curve_type
  let x := linspace 0 x_max num_points
  (x, x.map (kernelFun curve_type shape scale))

/-! ## Curve export (utils/export.py, lines 7-31) -/

/-- The `curve_type` argument of `export_curve_data` (`'pdf'`, `'cdf'`, or
anything else meaning `both`; the default is `'both'`). -/
inductive ExportType
  | pdf
  | cdf
  | both

/-- The exported data frame: `X_Value` column plus optional
`Probability_Density` and `Cumulative_Probability` columns. -/
structure CurveFrame where
  xValues : List ℝ
  pdfColumn : Option (List ℝ)
  cdfColumn : Option (List ℝ)
deriving DecidableEq

/-- Source `export_curve_data(shape, scale, curve_type, num_points)`.  In the
`both` branch the source discards the x-grid of the CDF curve
(`_, cdf = generate_weibull_curve(..., curve_type='cdf')`) and pairs the
CDF y-values with the x-grid of the PDF curve. -/
def export_curve_data (shape scale : ℝ) (curve_type : ExportType) (num_points : ℕ) :
    CurveFrame :=
  match curve_type with
  | .pdf =>
      let g := generate_weibull_curve shape scale num_points .pdf
      ⟨g.1, some g.2, none⟩
  | .cdf =>
      let g := generate_weibull_curve shape scale num_points .cdf
      ⟨g.1, none, some g.2⟩
  | .both =>
      let gp := generate_weibull_curve shape scale num_points .pdf
      let gc := generate_weibull_curve shape scale num_points .cdf
      ⟨gp.1, some gp.2, some gc.2⟩

/-! ## Point fitting (utils/weibull_functions.py, lines 17-35) -/

/-- Outcome of a call to the external `scipy.optimize.curve_fit`:
either optimal parameters `popt = (shape, scale)`, or a raised
`RuntimeError` (SciPy's signal that least squares did not converge within
its iteration budget), or some other raised exception. -/
inductive CurveFitOutcome
  | ok (shape scale : ℝ)
  | runtimeError (msg : String)
  | otherError (msg : String)

/-- Abstract model of `scipy.optimize.curve_fit`, applied to: the model
function, `x_points`, `y_points`, the initial guess `p0`, and the
`bounds` pair `((lo_shape, lo_scale), (hi_shape, hi_scale))`. -/
def CurveFitFun : Type :=
  (ℝ → ℝ → ℝ → ℝ) → List ℝ → List ℝ → ℝ × ℝ → (ℝ × ℝ) × (ℝ × ℝ) → CurveFitOutcome

/-- The inner `weibull_cdf_fit(x, shape, scale)` the source passes to
`curve_fit`. -/
def weibull_cdf_fit (x shape scale : ℝ) : ℝ :=
  1 - Real.exp (-(x / scale) ^ shape)

/-- NumPy `np.mean` of a list. -/
def listMean (l : List ℝ) : ℝ := l.sum / l.length

/-- Source `fit_weibull_to_points(x_points, y_points)`: calls `curve_fit` with
initial guess `[2, np.mean(x_points)]` and bounds `([0.1, 0.1], [50, 100])`.
A `RuntimeError` is caught and turned into the sentinel `(None, None)`;
any other exception propagates (modelled as `Except.error`). -/
def fit_weibull_to_points (cf : CurveFitFun) (x_points y_points : List ℝ) :
    Except String (Option ℝ × Option ℝ) :=
  match cf weibull_cdf_fit x_points y_points (2, listMean x_points) ((0.1, 0.1), (50, 100)) with
  | .ok shape scale => .ok (some shape, some scale)
  | .runtimeError _ => .ok (none, none)
  | .otherError m => .error m

/-! ## Point-fitting interface (components/point_fitting.py, lines 38-66) -/

/-- Observable outcome of `point_fitting_interface` on the fitting path:
the age-order validation error (`"Ages must be in ascending order"`,
reported before any fitting), the fitting-failure error
(`"Could not fit Weibull curve to provided points"`), a successful fit,
or a propagated exception. -/
inductive PFOutcome
  | rejectedAges
  | fitFailed
  | fitted (shape scale : ℝ)
  | raised (msg : String)
deriving DecidableEq

/-- The fitting path of `point_fitting_interface(x1, x2, x3)`:
`if not (x1 <= x2 <= x3)` report the age-order error and return *before*
constructing the point arrays and calling `fit_weibull_to_points`;
otherwise fit against targets `[0.25, 0.50, 0.75]` and report
`fitFailed` when the sentinel `(None, None)` (or any `None`) comes back. -/
def point_fitting_interface (cf : CurveFitFun) (x1 x2 x3 : ℝ) : PFOutcome :=
  if ¬ (x1 ≤ x2 ∧ x2 ≤ x3) then .rejectedAges
  else
    match fit_weibull_to_points cf [x1, x2, x3] [0.25, 0.50, 0.75] with
    | .ok (some shape, some scale) => .fitted shape scale
    | .ok _ => .fitFailed
    | .error m => .raised m

/-! ## MLE fitting (components/mle_fitting.py, lines 18-80) -/

/-- Source `weibull_loglik(params, lifetimes)`: negative Weibull log-likelihood.
Returns `float('inf')` (here `⊤ : EReal`) when `shape <= 0 or scale <= 0`;
otherwise clamps each lifetime below by `eps = 1e-10`
(`np.maximum(lifetimes, eps)`) and returns the negation of
`n*log(shape) - n*shape*log(scale) + (shape-1)*Σ log(xᵢ) - Σ (xᵢ/scale)^shape`.
The source's `np.isfinite(log_likelihood)` guard (returning `inf` on a
non-finite value) is always satisfied in real-number semantics, where every
value of the expression is a (finite) real, so that branch is unreachable
in this embedding. -/
def weibull_loglik (params : ℝ × ℝ) (lifetimes : List ℝ) : EReal :=
  if params.1 ≤ 0 ∨ params.2 ≤ 0 then ⊤
  else
    let eps : ℝ := 1e-10
    let safe := lifetimes.map (fun t => max t eps)
    let n : ℝ := lifetimes.length
    let ll : ℝ := n * Real.log params.1 - n * params.1 * Real.log params.2
      + (params.1 - 1) * (safe.map Real.log).sum
      - (safe.map (fun t => (t / params.2) ^ params.1)).sum
    ((-ll : ℝ) : EReal)

/-- Initial shape guess (mle_fitting.py, lines 53-55):
`np.log(np.log(4)) / np.log(p75/p25)` then `max(0.5, min(5.0, ·))`.
When `p75 = p25` the denominator is `0.0` and IEEE division of the positive
numerator `ln(ln 4)` by `+0.0` yields `+inf` (a NumPy warning, not an
error), which the clamp maps to the upper boundary `5.0`; that degenerate
branch is embedded explicitly since real division by zero has no infinity. -/
def shape_guess (p25 p75 : ℝ) : ℝ :=
  if Real.log (p75 / p25) = 0 then 5
  else max 0.5 (min 5.0 (Real.log (Real.log 4) / Real.log (p75 / p25)))

/-- Initial scale guess (mle_fitting.py, lines 57-58):
`p50 / (np.log(2) ** (1/shape_guess))`. -/
def scale_guess (p50 k0 : ℝ) : ℝ :=
  p50 / (Real.log 2) ^ ((1 : ℝ) / k0)

/-- Result of a call to the external `scipy.optimize.minimize`:
the minimizer `x`, the `success` flag, the `message`, and whether both
coordinates of `x` are finite floats (`np.isfinite`), which the real-valued
embedding cannot observe from `x` itself. -/
structure OptResult where
  x : ℝ × ℝ
  success : Bool
  message : String
  isFin : Bool

/-- Abstract model of `scipy.optimize.minimize`, applied to the initial
guess `x0 = (shape_guess, scale_guess)`, the `bounds`
`((0.1, 50), (0.1, 2 * max(lifetimes)))`, and the data. -/
def MinimizeFun : Type := ℝ × ℝ → (ℝ × ℝ) × (ℝ × ℝ) → List ℝ → OptResult

/-- Abstract model of `np.percentile(lifetimes, q)`. -/
def PercentileFun : Type := List ℝ → ℝ → ℝ

/-- NumPy `np.max` of a list (nonempty at every use site). -/
def listMax (l : List ℝ) : ℝ := l.foldr max 0

/-- The four distinct error conditions of `fit_weibull_mle`, each raised as
a `ValueError` with its own message:
`"Need at least 2 data points for fitting"`,
`"All lifetimes must be positive"`,
`"Fitting error: Optimization failed: {message}"` (the non-convergence
error re-wrapped by the `except` block), and
`"Fitting error: Optimization resulted in invalid parameters"`. -/
inductive MLEError
  | tooFewPoints
  | nonPositiveLifetime
  | optimizationFailed (msg : String)
  | invalidParameters
deriving DecidableEq

/-- The single `scipy.optimize.minimize` call of `fit_weibull_mle`:
initial guess `x0 = [shape_guess, scale_guess]` from the sample
percentiles, bounds `[(0.1, 50), (0.1, np.max(lifetimes) * 2)]`. -/
def mleOptCall (opt : MinimizeFun) (perc : PercentileFun) (lifetimes : List ℝ) : OptResult :=
  opt (shape_guess (perc lifetimes 25) (perc lifetimes 75),
       scale_guess (perc lifetimes 50) (shape_guess (perc lifetimes 25) (perc lifetimes 75)))
    ((0.1, 50), (0.1, listMax lifetimes * 2)) lifetimes

/-- Source `fit_weibull_mle(lifetimes)`: validates the sample size and positivity,
computes the percentile-based initial guesses, runs the bounded optimizer,
and raises on non-convergence or non-finite parameters; on success returns
`result.x`. -/
def fit_weibull_mle (opt : MinimizeFun) (perc : PercentileFun) (lifetimes : List ℝ) :
    Except MLEError (ℝ × ℝ) :=
  if lifetimes.length < 2 then .error .tooFewPoints
  else if ∃ t ∈ lifetimes, t ≤ 0 then .error .nonPositiveLifetime
  else
    let r := mleOptCall opt perc lifetimes
    if r.success = false then .error (.optimizationFailed r.message)
    else if r.isFin = false then .error .invalidParameters
    else .ok r.x

/-! ## Concrete oracle instances used to exercise the theorems -/

/-- A `curve_fit` oracle that always reports SciPy's non-convergence
`RuntimeError`. -/
def cfNonConvergent : CurveFitFun :=
  fun _ _ _ _ _ => .runtimeError "Optimal parameters not found: Number of calls to function has reached maxfev."

/-- A `curve_fit` oracle that always converges to `(2, 3)`. -/
def cfAlwaysOk : CurveFitFun := fun _ _ _ _ _ => .ok 2 3

/-- A `minimize` oracle that always succeeds at `(2, 3)` with finite
coordinates. -/
def optAlwaysOk : MinimizeFun := fun _ _ _ => ⟨(2, 3), true, "", true⟩

/-- A trivial percentile oracle. -/
def percConst : PercentileFun := fun _ _ => 1

/-! ## Helper lemmas: the PDF-truncation bisection -/

/-- Unfolding of one guarded bisection iteration. -/
theorem bisectIter_succ (shape scale : ℝ) (n : ℕ) (p : ℝ × ℝ) :
    bisectIter shape scale (n + 1) p =
      if 0.01 < p.2 - p.1 then bisectIter shape scale n (bisectStep shape scale p) else p := rfl

/-- Once the loop condition fails, further fuel leaves the state unchanged. -/
theorem bisectIter_frozen (shape scale : ℝ) (n : ℕ) (p : ℝ × ℝ)
    (h : ¬ 0.01 < p.2 - p.1) : bisectIter shape scale n p = p := by
  cases n with
  | zero => rfl
  | succ n => rw [bisectIter_succ, if_neg h]

/-- Splitting the fuel of the bisection iteration. -/
theorem bisectIter_add (shape scale : ℝ) (m n : ℕ) (p : ℝ × ℝ) :
    bisectIter shape scale (m + n) p = bisectIter shape scale n (bisectIter shape scale m p) := by
  induction m generalizing p with
  | zero => rw [Nat.zero_add]; rfl
  | succ m ih =>
      by_cases h : 0.01 < p.2 - p.1
      · rw [show m + 1 + n = (m + n) + 1 from by omega, bisectIter_succ, if_pos h,
          bisectIter_succ, if_pos h, ih]
      · rw [bisectIter_frozen shape scale (m + 1 + n) p h,
          bisectIter_frozen shape scale (m + 1) p h,
          bisectIter_frozen shape scale n p h]

/-- One bisection step keeps the bracket ordered, nonnegative, and inside
the original right endpoint. -/
theorem bisectStep_inv (shape scale : ℝ) (p : ℝ × ℝ) (h0 : 0 ≤ p.1) (h1 : p.1 < p.2) :
    0 ≤ (bisectStep shape scale p).1 ∧
      (bisectStep shape scale p).1 < (bisectStep shape scale p).2 ∧
      (bisectStep shape scale p).2 ≤ p.2 := by
  unfold bisectStep
  by_cases h : (0.0001 : ℝ) < weibull_pdf ((p.1 + p.2) / 2) shape scale
  · rw [if_pos h]
    refine ⟨by simp only; linarith, by simp only; linarith, le_refl _⟩
  · rw [if_neg h]
    refine ⟨h0, by simp only; linarith, by simp only; linarith⟩

/-- The bisection iteration keeps the bracket ordered, nonnegative, and
inside the original right endpoint. -/
theorem bisectIter_inv (shape scale : ℝ) (n : ℕ) (p : ℝ × ℝ) (h0 : 0 ≤ p.1) (h1 : p.1 < p.2) :
    0 ≤ (bisectIter shape scale n p).1 ∧
      (bisectIter shape scale n p).1 < (bisectIter shape scale n p).2 ∧
      (bisectIter shape scale n p).2 ≤ p.2 := by
  induction n generalizing p with
  | zero => exact ⟨h0, h1, le_refl _⟩
  | succ n ih =>
      rw [bisectIter_succ]
      by_cases h : (0.01 : ℝ) < p.2 - p.1
      · rw [if_pos h]
        obtain ⟨s0, s1, s2⟩ := bisectStep_inv shape scale p h0 h1
        obtain ⟨t0, t1, t2⟩ := ih (bisectStep shape scale p) s0 s1
        exact ⟨t0, t1, le_trans t2 s2⟩
      · rw [if_neg h]
        exact ⟨h0, h1, le_refl _⟩

/-- One bisection step exactly halves the bracket width. -/
theorem bisectStep_width (shape scale : ℝ) (p : ℝ × ℝ) :
    (bisectStep shape scale p).2 - (bisectStep shape scale p).1 = (p.2 - p.1) / 2 := by
  unfold bisectStep
  by_cases h : (0.0001 : ℝ) < weibull_pdf ((p.1 + p.2) / 2) shape scale
  · rw [if_pos h]; simp only; ring
  · rw [if_neg h]; simp only; ring

/-- After `n` fuel the bracket width is at most
`max (initial width / 2^n) 0.01`. -/
theorem bisectIter_width (shape scale : ℝ) (n : ℕ) (p : ℝ × ℝ) :
    (bisectIter shape scale n p).2 - (bisectIter shape scale n p).1 ≤
      max ((p.2 - p.1) / 2 ^ n) 0.01 := by
  induction n generalizing p with
  | zero =>
      simp only [bisectIter, pow_zero, div_one]
      exact le_max_left _ _
  | succ n ih =>
      rw [bisectIter_succ]
      by_cases h : (0.01 : ℝ) < p.2 - p.1
      · rw [if_pos h]
        refine le_trans (ih (bisectStep shape scale p)) (le_of_eq ?_)
        rw [bisectStep_width, div_div, ← pow_succ']
      · rw [if_neg h]
        exact le_trans (le_of_not_lt h) (le_max_right _ _)

/-- Two sufficient fuels give the same bisection result, provided the
smaller one already makes the loop condition fail. -/
theorem bisectIter_eq_of_le (shape scale : ℝ) (m n : ℕ) (p : ℝ × ℝ) (hmn : m ≤ n)
    (h : (bisectIter shape scale m p).2 - (bisectIter shape scale m p).1 ≤ 0.01) :
    bisectIter shape scale n p = bisectIter shape scale m p := by
  rw [show n = m + (n - m) from by omega, bisectIter_add]
  exact bisectIter_frozen shape scale _ _ (not_lt.mpr h)

/-- Peeling one effective step off the front of the iteration. -/
theorem bisectIter_step_out (shape scale : ℝ) (n : ℕ) (p q : ℝ × ℝ)
    (hw : 0.01 < p.2 - p.1) (hs : bisectStep shape scale p = q) :
    bisectIter shape scale (n + 1) p = bisectIter shape scale n q := by
  rw [bisectIter_succ, if_pos hw, hs]

/-! ## Helper lemmas: distribution kernel -/

/-- The Weibull PDF is nonnegative at nonnegative arguments. -/
theorem weibull_pdf_nonneg (x shape scale : ℝ) (hx : 0 ≤ x) (hs : 0 < shape) (hc : 0 < scale) :
    0 ≤ weibull_pdf x shape scale := by
  unfold weibull_pdf
  have h2 : (0 : ℝ) ≤ (x / scale) ^ (shape - 1) :=
    Real.rpow_nonneg (div_nonneg hx hc.le) _
  exact mul_nonneg (mul_nonneg (div_nonneg hs.le hc.le) h2) (Real.exp_pos _).le

/-- The Weibull hazard is nonnegative at nonnegative arguments. -/
theorem weibull_hazard_nonneg (x shape scale : ℝ) (hx : 0 ≤ x) (hs : 0 < shape) (hc : 0 < scale) :
    0 ≤ weibull_hazard x shape scale := by
  unfold weibull_hazard
  exact mul_nonneg (div_nonneg hs.le hc.le) (Real.rpow_nonneg (div_nonneg hx hc.le) _)

/-- The Weibull CDF lies in `[0, 1)` at nonnegative arguments. -/
theorem weibull_cdf_mem (x shape scale : ℝ) (hx : 0 ≤ x) (hs : 0 < shape) (hc : 0 < scale) :
    0 ≤ weibull_cdf x shape scale ∧ weibull_cdf x shape scale < 1 := by
  unfold weibull_cdf
  have h1 : (0 : ℝ) ≤ (x / scale) ^ shape := Real.rpow_nonneg (div_nonneg hx hc.le) _
  constructor
  · have h2 : Real.exp (-(x / scale) ^ shape) ≤ 1 := Real.exp_le_one_iff.mpr (by linarith)
    linarith
  · have h3 := Real.exp_pos (-(x / scale) ^ shape)
    linarith

/-- The Weibull CDF is strictly increasing on the nonnegative axis. -/
theorem weibull_cdf_strict_mono (shape scale x y : ℝ) (hs : 0 < shape) (hc : 0 < scale)
    (hx : 0 ≤ x) (hxy : x < y) :
    weibull_cdf x shape scale < weibull_cdf y shape scale := by
  unfold weibull_cdf
  have h1 : x / scale < y / scale := by gcongr
  have h2 : (x / scale) ^ shape < (y / scale) ^ shape :=
    Real.rpow_lt_rpow (div_nonneg hx hc.le) h1 hs
  have h3 : Real.exp (-(y / scale) ^ shape) < Real.exp (-(x / scale) ^ shape) :=
    Real.exp_lt_exp.mpr (by linarith)
  linarith

/-! ## Helper lemmas: numeric bounds -/

/-- Bound `exp 10 < 100000` (so the PDF of the C1 scenario stays above threshold
on the whole bisection range). -/
theorem exp_ten_lt : Real.exp 10 < 100000 := by
  have h : Real.exp 10 = Real.exp 1 ^ (10 : ℕ) := by
    rw [← Real.exp_nat_mul]; norm_num
  rw [h]
  calc Real.exp 1 ^ (10 : ℕ) < 2.7182818286 ^ (10 : ℕ) :=
        pow_lt_pow_left Real.exp_one_lt_d9 (Real.exp_pos 1).le (by norm_num)
    _ < 100000 := by norm_num

/-- Bound `10000 < exp 10` (so `1 - exp (-10) ≠ 0.9999`). -/
theorem exp_ten_gt : (10000 : ℝ) < Real.exp 10 := by
  have h : Real.exp 10 = Real.exp 1 ^ (10 : ℕ) := by
    rw [← Real.exp_nat_mul]; norm_num
  rw [h]
  calc (10000 : ℝ) < 2.7182818283 ^ (10 : ℕ) := by norm_num
    _ < Real.exp 1 ^ (10 : ℕ) :=
        pow_lt_pow_left Real.exp_one_gt_d9 (by norm_num) (by norm_num)

/-- Decomposition `10000 = 2^13 * (625/512)` for the logarithm bounds. -/
theorem log_ten_thousand_eq :
    Real.log 10000 = 13 * Real.log 2 + Real.log (625 / 512) := by
  have h : (10000 : ℝ) = 2 ^ (13 : ℕ) * (625 / 512) := by norm_num
  rw [h, Real.log_mul (by norm_num) (by norm_num), Real.log_pow]
  norm_num

/-- Lower bound `9.1917 < log 10000` (true value `≈ 9.21034`). -/
theorem log_ten_thousand_gt : (9.1917 : ℝ) < Real.log 10000 := by
  rw [log_ten_thousand_eq]
  have h1 : Real.log (512 / 625) ≤ 512 / 625 - 1 :=
    Real.log_le_sub_one_of_pos (by norm_num)
  have h2 : Real.log (625 / 512) = -Real.log (512 / 625) := by
    rw [show (625 : ℝ) / 512 = (512 / 625)⁻¹ from by norm_num, Real.log_inv]
  have h3 := Real.log_two_gt_d9
  rw [h2]
  norm_num at h1 h3 ⊢
  nlinarith

/-- Upper bound `log 10000 < 9.2317` (true value `≈ 9.21034`). -/
theorem log_ten_thousand_lt : Real.log 10000 < (9.2317 : ℝ) := by
  rw [log_ten_thousand_eq]
  have h1 : Real.log (625 / 512) ≤ 625 / 512 - 1 :=
    Real.log_le_sub_one_of_pos (by norm_num)
  have h3 := Real.log_two_lt_d9
  norm_num at h1 h3 ⊢
  nlinarith

/-! ## Helper lemmas: linspace and curve generation -/

/-- Lemma: `linspace` has the requested length. -/
theorem linspace_length (a b : ℝ) (n : ℕ) : (linspace a b n).length = n := by
  unfold linspace
  rw [List.length_map, List.length_range]

/-- Entry `i` of `linspace a b n`. -/
theorem linspace_getD (a b : ℝ) (n i : ℕ) (hi : i < n) (d : ℝ) :
    (linspace a b n).getD i d = a + (b - a) * i / ((n : ℝ) - 1) := by
  have hl : i < (linspace a b n).length := by rwa [linspace_length]
  rw [List.getD_eq_getElem _ _ hl]
  simp only [linspace, List.getElem_map, List.getElem_range]

/-- The x-column of a generated curve has the requested length. -/
theorem generate_fst_length (shape scale : ℝ) (n : ℕ) (ct : CurveType) :
    (generate_weibull_curve shape scale n ct).1.length = n := by
  unfold generate_weibull_curve
  exact linspace_length _ _ _

/-- The y-column of a generated curve has the requested length. -/
theorem generate_snd_length (shape scale : ℝ) (n : ℕ) (ct : CurveType) :
    (generate_weibull_curve shape scale n ct).2.length = n := by
  unfold generate_weibull_curve
  rw [List.length_map, linspace_length]

/-- Entry `i` of the x-column: `x_max * i / (n - 1)`. -/
theorem generate_fst_getD (shape scale : ℝ) (n : ℕ) (ct : CurveType) (i : ℕ) (hi : i < n)
    (d : ℝ) :
    (generate_weibull_curve shape scale n ct).1.getD i d =
      find_truncation_point shape scale ct * i / ((n : ℝ) - 1) := by
  unfold generate_weibull_curve
  rw [linspace_getD _ _ _ _ hi]
  ring

/-- Entry `i` of the y-column: the matching kernel function evaluated at
entry `i` of the x-column. -/
theorem generate_snd_getD (shape scale : ℝ) (n : ℕ) (ct : CurveType) (i : ℕ) (hi : i < n)
    (d : ℝ) :
    (generate_weibull_curve shape scale n ct).2.getD i d =
      kernelFun ct shape scale
        (find_truncation_point shape scale ct * i / ((n : ℝ) - 1)) := by
  have hl : i < (linspace 0 (find_truncation_point shape scale ct) n).length := by
    rwa [linspace_length]
  have hl2 : i < ((linspace 0 (find_truncation_point shape scale ct) n).map
      (kernelFun ct shape scale)).length := by
    rwa [List.length_map]
  show ((linspace 0 (find_truncation_point shape scale ct) n).map
      (kernelFun ct shape scale)).getD i d = _
  rw [List.getD_eq_getElem _ d hl2, List.getElem_map, ← List.getD_eq_getElem _ 0 hl,
    linspace_getD _ _ _ _ hi]
  have harg : 0 + (find_truncation_point shape scale ct - 0) * (i : ℝ) / ((n : ℝ) - 1) =
      find_truncation_point shape scale ct * i / ((n : ℝ) - 1) := by ring
  rw [harg]

/-- Identity `-log (1 - 0.9999) = log 10000`. -/
theorem neg_log_tail_eq : -Real.log (1 - 0.9999) = Real.log 10000 := by
  rw [show (1 : ℝ) - 0.9999 = (10000 : ℝ)⁻¹ from by norm_num, Real.log_inv]
  ring

/-- The truncation point is strictly positive for positive parameters. -/
theorem find_truncation_point_pos (shape scale : ℝ) (ct : CurveType)
    (hs : 0 < shape) (hc : 0 < scale) : 0 < find_truncation_point shape scale ct := by
  cases ct with
  | cdf =>
      unfold find_truncation_point
      have hL : (0 : ℝ) < -Real.log (1 - 0.9999) := by
        rw [neg_log_tail_eq]
        linarith [log_ten_thousand_gt]
      exact mul_pos hc (Real.rpow_pos_of_pos hL _)
  | hazard =>
      unfold find_truncation_point
      linarith
  | pdf =>
      unfold find_truncation_point pdfTruncation
      obtain ⟨h0, h1, _⟩ := bisectIter_inv shape scale (pdfBisectFuel scale) (0, 10 * scale)
        (le_refl 0) (by simp only; linarith)
      linarith

/-- The CDF evaluated at the closed-form CDF truncation point is exactly
`0.9999`. -/
theorem cdf_at_truncation (shape scale : ℝ) (hs : 0 < shape) (hc : 0 < scale) :
    weibull_cdf (find_truncation_point shape scale .cdf) shape scale = 0.9999 := by
  unfold find_truncation_point weibull_cdf
  have hL : (0 : ℝ) ≤ -Real.log (1 - 0.9999) := by
    rw [neg_log_tail_eq]
    linarith [log_ten_thousand_gt]
  have h1 : scale * (-Real.log (1 - 0.9999)) ^ ((1 : ℝ) / shape) / scale =
      (-Real.log (1 - 0.9999)) ^ ((1 : ℝ) / shape) :=
    mul_div_cancel_left₀ _ hc.ne'
  rw [h1, ← Real.rpow_mul hL, one_div, inv_mul_cancel₀ hs.ne', Real.rpow_one,
    neg_log_tail_eq, Real.exp_neg, Real.exp_log (by norm_num : (0 : ℝ) < 10000)]
  norm_num

/-! ## Helper lemmas: the concrete scenario shape = 1, scale = 1/100

For these parameters the PDF is `100 * exp (-100 x)`, which stays above the
`0.0001` threshold on the whole bisection range `[0, 1/10]`, so the
bisection collapses to the right bound `1/10` after four effective steps,
while the CDF truncation point is `log 10000 / 100 ≈ 0.0921`.  The two
truncation points therefore differ, which drives the `both`-export
counterexample. -/

/-- On `(-∞, 1/10]` the scenario PDF stays above the truncation threshold. -/
theorem c1_pdf_cond (m : ℝ) (hm : m ≤ 1 / 10) :
    (0.0001 : ℝ) < weibull_pdf m 1 (1 / 100) := by
  unfold weibull_pdf
  rw [show (1 : ℝ) - 1 = 0 from by norm_num, Real.rpow_zero, Real.rpow_one,
    show m / (1 / 100) = 100 * m from by ring]
  have h2 : Real.exp (-10 : ℝ) ≤ Real.exp (-(100 * m)) :=
    Real.exp_le_exp.mpr (by linarith)
  have h3 : (1 : ℝ) / 100000 < Real.exp (-10) := by
    rw [Real.exp_neg, ← one_div]
    exact one_div_lt_one_div_of_lt (Real.exp_pos 10) exp_ten_lt
  norm_num
  nlinarith

/-- First bisection step of the scenario. -/
theorem c1_step1 : bisectStep 1 (1 / 100) (0, 1 / 10) = (1 / 20, 1 / 10) := by
  unfold bisectStep
  rw [if_pos]
  · norm_num [Prod.ext_iff]
  · exact c1_pdf_cond _ (by norm_num)

/-- Second bisection step of the scenario. -/
theorem c1_step2 : bisectStep 1 (1 / 100) (1 / 20, 1 / 10) = (3 / 40, 1 / 10) := by
  unfold bisectStep
  rw [if_pos]
  · norm_num [Prod.ext_iff]
  · exact c1_pdf_cond _ (by norm_num)

/-- Third bisection step of the scenario. -/
theorem c1_step3 : bisectStep 1 (1 / 100) (3 / 40, 1 / 10) = (7 / 80, 1 / 10) := by
  unfold bisectStep
  rw [if_pos]
  · norm_num [Prod.ext_iff]
  · exact c1_pdf_cond _ (by norm_num)

/-- Fourth bisection step of the scenario. -/
theorem c1_step4 : bisectStep 1 (1 / 100) (7 / 80, 1 / 10) = (3 / 32, 1 / 10) := by
  unfold bisectStep
  rw [if_pos]
  · norm_num [Prod.ext_iff]
  · exact c1_pdf_cond _ (by norm_num)

/-- The scenario bisection with fuel 10 lands on bracket `(3/32, 1/10)`. -/
theorem c1_bisect_run : bisectIter 1 (1 / 100) 10 (0, 1 / 10) = (3 / 32, 1 / 10) :=
  calc bisectIter 1 (1 / 100) 10 (0, 1 / 10)
      = bisectIter 1 (1 / 100) 9 (1 / 20, 1 / 10) :=
        bisectIter_step_out 1 (1 / 100) 9 _ _ (by norm_num) c1_step1
    _ = bisectIter 1 (1 / 100) 8 (3 / 40, 1 / 10) :=
        bisectIter_step_out 1 (1 / 100) 8 _ _ (by norm_num) c1_step2
    _ = bisectIter 1 (1 / 100) 7 (7 / 80, 1 / 10) :=
        bisectIter_step_out 1 (1 / 100) 7 _ _ (by norm_num) c1_step3
    _ = bisectIter 1 (1 / 100) 6 (3 / 32, 1 / 10) :=
        bisectIter_step_out 1 (1 / 100) 6 _ _ (by norm_num) c1_step4
    _ = (3 / 32, 1 / 10) := bisectIter_frozen 1 (1 / 100) 6 _ (by norm_num)

/-- The scenario PDF truncation point collapses to the right bound `1/10`. -/
theorem c1_pdf_truncation : pdfTruncation 1 (1 / 100) = 1 / 10 := by
  unfold pdfTruncation
  have hf : pdfBisectFuel (1 / 100) = 10 := by
    unfold pdfBisectFuel
    norm_num
  rw [hf, show (10 : ℝ) * (1 / 100) = 1 / 10 from by norm_num, c1_bisect_run]

/-- The scenario CDF truncation point is `log 10000 / 100`. -/
theorem c1_cdf_truncation :
    find_truncation_point 1 (1 / 100) CurveType.cdf = Real.log 10000 / 100 := by
  unfold find_truncation_point
  rw [show (1 : ℝ) / 1 = 1 from by norm_num, Real.rpow_one, neg_log_tail_eq]
  ring

/-- The scenario CDF evaluates to exactly `0.9999` at its own truncation
point. -/
theorem c1_cdf_value : weibull_cdf (Real.log 10000 / 100) 1 (1 / 100) = 0.9999 := by
  unfold weibull_cdf
  rw [show Real.log 10000 / 100 / (1 / 100) = Real.log 10000 from by ring, Real.rpow_one,
    Real.exp_neg, Real.exp_log (by norm_num : (0 : ℝ) < 10000)]
  norm_num

/-- The scenario CDF at the PDF truncation point `1/10` exceeds `0.9999`. -/
theorem c1_cdf_at_pdf_x : (0.9999 : ℝ) < weibull_cdf (1 / 10) 1 (1 / 100) := by
  unfold weibull_cdf
  rw [show (1 : ℝ) / 10 / (1 / 100) = 10 from by norm_num, Real.rpow_one]
  have h : Real.exp (-10 : ℝ) < 1 / 10000 := by
    rw [Real.exp_neg, ← one_div]
    exact one_div_lt_one_div_of_lt (by norm_num) exp_ten_gt
  norm_num
  linarith

/-! ## Claim theorems -/

/-- Claim C2. For every shape > 0, scale > 0, curve type among pdf/cdf/hazard
and `num_points ≥ 2`, `generate_weibull_curve` returns exactly `num_points`
(x, y) samples; the x values are evenly spaced (`x i = x_max * i / (n-1)`)
and strictly increasing from `0` to a strictly positive `x_max`; and the y
values lie in the valid range for the curve type: density ≥ 0, cdf in
[0, 1], hazard ≥ 0. -/
theorem c2_generate_curve_shape (shape scale : ℝ) (n : ℕ) (ct : CurveType)
    (hs : 0 < shape) (hc : 0 < scale) (hn : 2 ≤ n) :
    (generate_weibull_curve shape scale n ct).1.length = n ∧
    (generate_weibull_curve shape scale n ct).2.length = n ∧
    0 < find_truncation_point shape scale ct ∧
    (∀ i : ℕ, i < n → (generate_weibull_curve shape scale n ct).1.getD i 0 =
      find_truncation_point shape scale ct * i / ((n : ℝ) - 1)) ∧
    (generate_weibull_curve shape scale n ct).1.getD 0 0 = 0 ∧
    (generate_weibull_curve shape scale n ct).1.getD (n - 1) 0 =
      find_truncation_point shape scale ct ∧
    (∀ i j : ℕ, i < j → j < n →
      (generate_weibull_curve shape scale n ct).1.getD i 0 <
        (generate_weibull_curve shape scale n ct).1.getD j 0) ∧
    (∀ i : ℕ, i < n → 0 ≤ (generate_weibull_curve shape scale n ct).2.getD i 0 ∧
      (ct = CurveType.cdf → (generate_weibull_curve shape scale n ct).2.getD i 0 ≤ 1)) := by
  have hpos := find_truncation_point_pos shape scale ct hs hc
  have hd : (0 : ℝ) < (n : ℝ) - 1 := by
    have : (2 : ℝ) ≤ (n : ℝ) := by exact_mod_cast hn
    linarith
  refine ⟨generate_fst_length shape scale n ct, generate_snd_length shape scale n ct, hpos,
    fun i hi => generate_fst_getD shape scale n ct i hi 0, ?_, ?_, ?_, ?_⟩
  · rw [generate_fst_getD shape scale n ct 0 (by omega) 0]
    norm_num
  · rw [generate_fst_getD shape scale n ct (n - 1) (by omega) 0]
    have hcast : ((n - 1 : ℕ) : ℝ) = (n : ℝ) - 1 := by
      have : 1 ≤ n := by omega
      push_cast [this]
      ring
    rw [hcast, mul_div_assoc, div_self hd.ne', mul_one]
  · intro i j hij hj
    rw [generate_fst_getD shape scale n ct i (by omega) 0,
      generate_fst_getD shape scale n ct j hj 0]
    have hnum : find_truncation_point shape scale ct * (i : ℝ) <
        find_truncation_point shape scale ct * (j : ℝ) := by
      have : (i : ℝ) < (j : ℝ) := by exact_mod_cast hij
      exact mul_lt_mul_of_pos_left this hpos
    calc find_truncation_point shape scale ct * (i : ℝ) / ((n : ℝ) - 1)
        = find_truncation_point shape scale ct * (i : ℝ) * ((n : ℝ) - 1)⁻¹ := by
          rw [div_eq_mul_inv]
      _ < find_truncation_point shape scale ct * (j : ℝ) * ((n : ℝ) - 1)⁻¹ :=
          mul_lt_mul_of_pos_right hnum (inv_pos.mpr hd)
      _ = find_truncation_point shape scale ct * (j : ℝ) / ((n : ℝ) - 1) := by
          rw [div_eq_mul_inv]
  · intro i hi
    rw [generate_snd_getD shape scale n ct i hi 0]
    have hx : 0 ≤ find_truncation_point shape scale ct * (i : ℝ) / ((n : ℝ) - 1) := by
      have hi0 : (0 : ℝ) ≤ (i : ℝ) := Nat.cast_nonneg i
      positivity
    cases ct with
    | pdf =>
        refine ⟨weibull_pdf_nonneg _ _ _ hx hs hc, fun hcd => CurveType.noConfusion hcd⟩
    | cdf =>
        obtain ⟨h0, h1⟩ := weibull_cdf_mem _ shape scale hx hs hc
        exact ⟨h0, fun _ => h1.le⟩
    | hazard =>
        refine ⟨weibull_hazard_nonneg _ _ _ hx hs hc, fun hcd => CurveType.noConfusion hcd⟩

/-- Witness for C2 at shape = 1, scale = 1, n = 2, hazard curve. -/
theorem c2_generate_curve_shape_witness :
    (generate_weibull_curve 1 1 2 CurveType.hazard).1.length = 2 ∧
    0 < find_truncation_point 1 1 CurveType.hazard ∧
    (generate_weibull_curve 1 1 2 CurveType.hazard).1.getD 0 0 <
      (generate_weibull_curve 1 1 2 CurveType.hazard).1.getD 1 0 ∧
    0 ≤ (generate_weibull_curve 1 1 2 CurveType.hazard).2.getD 1 0 := by
  obtain ⟨h1, _, h3, _, _, _, h7, h8⟩ :=
    c2_generate_curve_shape 1 1 2 CurveType.hazard (by norm_num) (by norm_num) (by norm_num)
  exact ⟨h1, h3, h7 0 1 (by norm_num) (by norm_num), (h8 1 (by norm_num)).1⟩

/-- Claim C7. For every shape > 0 and scale > 0, the CDF truncation point
equals `scale * (-ln (1 - 0.9999)) ^ (1/shape)`, the CDF evaluates to
exactly `0.9999` there, and every smaller nonnegative x has CDF below
`0.9999` (so it is the smallest x reaching `0.9999`).  Concretely,
`generate_weibull_curve 2 1 100 cdf` starts at the point `(0, 0)`, its last
x lies strictly between `3.03` and `3.04`, and its cdf values are strictly
increasing across all 100 points. -/
theorem c7_cdf_truncation_point :
    (∀ shape scale : ℝ, 0 < shape → 0 < scale →
      find_truncation_point shape scale CurveType.cdf =
        scale * (-Real.log (1 - 0.9999)) ^ ((1 : ℝ) / shape) ∧
      weibull_cdf (find_truncation_point shape scale CurveType.cdf) shape scale = 0.9999 ∧
      (∀ x : ℝ, 0 ≤ x → x < find_truncation_point shape scale CurveType.cdf →
        weibull_cdf x shape scale < 0.9999)) ∧
    (generate_weibull_curve 2 1 100 CurveType.cdf).1.getD 0 0 = 0 ∧
    (generate_weibull_curve 2 1 100 CurveType.cdf).2.getD 0 0 = 0 ∧
    3.03 < (generate_weibull_curve 2 1 100 CurveType.cdf).1.getD 99 0 ∧
    (generate_weibull_curve 2 1 100 CurveType.cdf).1.getD 99 0 < 3.04 ∧
    (∀ i j : ℕ, i < j → j < 100 →
      (generate_weibull_curve 2 1 100 CurveType.cdf).2.getD i 0 <
        (generate_weibull_curve 2 1 100 CurveType.cdf).2.getD j 0) := by
  have hgen : ∀ shape scale : ℝ, 0 < shape → 0 < scale →
      find_truncation_point shape scale CurveType.cdf =
        scale * (-Real.log (1 - 0.9999)) ^ ((1 : ℝ) / shape) ∧
      weibull_cdf (find_truncation_point shape scale CurveType.cdf) shape scale = 0.9999 ∧
      (∀ x : ℝ, 0 ≤ x → x < find_truncation_point shape scale CurveType.cdf →
        weibull_cdf x shape scale < 0.9999) := by
    intro shape scale hs hc
    refine ⟨rfl, cdf_at_truncation shape scale hs hc, fun x hx hlt => ?_⟩
    calc weibull_cdf x shape scale
        < weibull_cdf (find_truncation_point shape scale CurveType.cdf) shape scale :=
          weibull_cdf_strict_mono shape scale x _ hs hc hx hlt
      _ = 0.9999 := cdf_at_truncation shape scale hs hc
  have hlast : (generate_weibull_curve 2 1 100 CurveType.cdf).1.getD 99 0 =
      Real.log 10000 ^ ((1 : ℝ) / 2) := by
    rw [generate_fst_getD 2 1 100 CurveType.cdf 99 (by norm_num) 0]
    show find_truncation_point 2 1 CurveType.cdf * (99 : ℕ) / ((100 : ℝ) - 1) = _
    unfold find_truncation_point
    rw [neg_log_tail_eq]
    norm_num
  have hL0 : (0 : ℝ) ≤ Real.log 10000 := by linarith [log_ten_thousand_gt]
  refine ⟨hgen, ?_, ?_, ?_, ?_, ?_⟩
  · rw [generate_fst_getD 2 1 100 CurveType.cdf 0 (by norm_num) 0]
    norm_num
  · rw [generate_snd_getD 2 1 100 CurveType.cdf 0 (by norm_num) 0]
    show weibull_cdf _ 2 1 = 0
    unfold weibull_cdf
    norm_num
  · rw [hlast, ← Real.sqrt_eq_rpow]
    rw [Real.lt_sqrt (by norm_num)]
    calc ((3.03 : ℝ)) ^ 2 = 9.1809 := by norm_num
      _ < 9.1917 := by norm_num
      _ < Real.log 10000 := log_ten_thousand_gt
  · rw [hlast, ← Real.sqrt_eq_rpow]
    rw [Real.sqrt_lt' (by norm_num)]
    calc Real.log 10000 < 9.2317 := log_ten_thousand_lt
      _ < ((3.04 : ℝ)) ^ 2 := by norm_num
  · intro i j hij hj
    have hpos := find_truncation_point_pos 2 1 CurveType.cdf (by norm_num) (by norm_num)
    rw [generate_snd_getD 2 1 100 CurveType.cdf i (by omega) 0,
      generate_snd_getD 2 1 100 CurveType.cdf j hj 0]
    show weibull_cdf _ 2 1 < weibull_cdf _ 2 1
    have hxi : (0 : ℝ) ≤ find_truncation_point 2 1 CurveType.cdf * (i : ℝ) / ((100 : ℝ) - 1) := by
      have : (0 : ℝ) ≤ (i : ℝ) := Nat.cast_nonneg i
      positivity
    have hxx : find_truncation_point 2 1 CurveType.cdf * (i : ℝ) / ((100 : ℝ) - 1) <
        find_truncation_point 2 1 CurveType.cdf * (j : ℝ) / ((100 : ℝ) - 1) := by
      have hcast : (i : ℝ) < (j : ℝ) := by exact_mod_cast hij
      have h1 : find_truncation_point 2 1 CurveType.cdf * (i : ℝ) <
          find_truncation_point 2 1 CurveType.cdf * (j : ℝ) :=
        mul_lt_mul_of_pos_left hcast hpos
      calc find_truncation_point 2 1 CurveType.cdf * (i : ℝ) / ((100 : ℝ) - 1)
          = find_truncation_point 2 1 CurveType.cdf * (i : ℝ) * ((100 : ℝ) - 1)⁻¹ := by
            rw [div_eq_mul_inv]
        _ < find_truncation_point 2 1 CurveType.cdf * (j : ℝ) * ((100 : ℝ) - 1)⁻¹ :=
            mul_lt_mul_of_pos_right h1 (by norm_num)
        _ = find_truncation_point 2 1 CurveType.cdf * (j : ℝ) / ((100 : ℝ) - 1) := by
            rw [div_eq_mul_inv]
    exact weibull_cdf_strict_mono 2 1 _ _ (by norm_num) (by norm_num) hxi hxx

/-- Witness for C7: the general part applied at shape = 1, scale = 1. -/
theorem c7_cdf_truncation_point_witness :
    weibull_cdf (find_truncation_point 1 1 CurveType.cdf) 1 1 = 0.9999 ∧
    3.03 < (generate_weibull_curve 2 1 100 CurveType.cdf).1.getD 99 0 := by
  obtain ⟨hgen, _, _, h4, _, _⟩ := c7_cdf_truncation_point
  exact ⟨(hgen 1 1 (by norm_num) (by norm_num)).2.1, h4⟩

/-- Claim C10. For every shape > 0 and scale > 0 (any scale a 64-bit float
can represent is far below `10^448`), the PDF-truncation bisection over
`[0, 10*scale]` has terminated within 1500 iterations — the bracket width,
which halves at each effective step, is at most the `0.01` tolerance after
1500 guarded steps — and the loop result `pdfTruncation` equals the state
after those 1500 steps and is a finite, strictly positive x_max bounded by
`10*scale`.  This covers the case where `pdf(10*scale)` is already below
the `1e-4` threshold (no hypothesis on the pdf at the right bound is
needed). -/
theorem c10_pdf_bisection_terminates (shape scale : ℝ) (hs : 0 < shape) (hc : 0 < scale)
    (hbound : scale ≤ 10 ^ (448 : ℕ)) :
    (bisectIter shape scale 1500 (0, 10 * scale)).2 -
        (bisectIter shape scale 1500 (0, 10 * scale)).1 ≤ 0.01 ∧
    pdfTruncation shape scale = (bisectIter shape scale 1500 (0, 10 * scale)).2 ∧
    0 < pdfTruncation shape scale ∧
    pdfTruncation shape scale ≤ 10 * scale := by
  have hw1500 : (bisectIter shape scale 1500 (0, 10 * scale)).2 -
      (bisectIter shape scale 1500 (0, 10 * scale)).1 ≤ 0.01 := by
    refine le_trans (bisectIter_width shape scale 1500 (0, 10 * scale)) (max_le ?_ le_rfl)
    show ((0, 10 * scale).2 - (0, 10 * scale).1) / 2 ^ 1500 ≤ (0.01 : ℝ)
    simp only
    rw [sub_zero, div_le_iff (by positivity)]
    have hpow : (10 : ℝ) ^ (451 : ℕ) ≤ 2 ^ (1500 : ℕ) := by norm_num
    nlinarith [hpow]
  have hwfuel : (bisectIter shape scale (pdfBisectFuel scale) (0, 10 * scale)).2 -
      (bisectIter shape scale (pdfBisectFuel scale) (0, 10 * scale)).1 ≤ 0.01 := by
    refine le_trans (bisectIter_width shape scale _ (0, 10 * scale)) (max_le ?_ le_rfl)
    show ((0, 10 * scale).2 - (0, 10 * scale).1) / 2 ^ pdfBisectFuel scale ≤ (0.01 : ℝ)
    simp only
    rw [sub_zero, div_le_iff (by positivity)]
    have h1 : (1000 * scale : ℝ) ≤ (pdfBisectFuel scale : ℝ) := by
      unfold pdfBisectFuel
      exact Nat.le_ceil _
    have h2 : (pdfBisectFuel scale : ℝ) ≤ (2 : ℝ) ^ pdfBisectFuel scale := by
      exact_mod_cast (Nat.lt_two_pow (pdfBisectFuel scale)).le
    have h3 : (0.01 : ℝ) = 1 / 100 := by norm_num
    rw [h3]
    nlinarith
  have heq : pdfTruncation shape scale = (bisectIter shape scale 1500 (0, 10 * scale)).2 := by
    unfold pdfTruncation
    rcases le_total (pdfBisectFuel scale) 1500 with hle | hle
    · rw [bisectIter_eq_of_le shape scale (pdfBisectFuel scale) 1500 _ hle hwfuel]
    · rw [bisectIter_eq_of_le shape scale 1500 (pdfBisectFuel scale) _ hle hw1500]
  obtain ⟨hi0, hi1, hi2⟩ := bisectIter_inv shape scale (pdfBisectFuel scale) (0, 10 * scale)
    (le_refl 0) (by simp only; linarith)
  refine ⟨hw1500, heq, ?_, ?_⟩
  · unfold pdfTruncation
    linarith
  · unfold pdfTruncation
    simpa using hi2

/-- Witness for C10 at shape = 1, scale = 1. -/
theorem c10_pdf_bisection_terminates_witness :
    (bisectIter 1 1 1500 (0, 10 * 1)).2 - (bisectIter 1 1 1500 (0, 10 * 1)).1 ≤ 0.01 ∧
    0 < pdfTruncation 1 1 ∧ pdfTruncation 1 1 ≤ 10 * 1 := by
  obtain ⟨h1, _, h3, h4⟩ :=
    c10_pdf_bisection_terminates 1 1 (by norm_num) (by norm_num) (by norm_num)
  exact ⟨h1, h3, h4⟩

/-- Claim C1, amended. For every shape > 0, scale > 0, num_points ≥ 2:
for curve_type `pdf` or `cdf` the exported frame is exactly the (x, y)
output of `generate_weibull_curve` for that curve type, and every row
satisfies `y[i] = pdf/cdf(X_Value[i])`.  For curve_type `both`, `X_Value`
and `Probability_Density` come from the pdf curve (so
`Probability_Density[i] = weibull_pdf(X_Value[i])`), while
`Cumulative_Probability` is the y-column of the separately generated cdf
curve, sampled on the cdf curve's own x-grid — so
`Cumulative_Probability[i] = weibull_cdf(x_cdf[i])`, not
`weibull_cdf(X_Value[i])`, whenever the pdf and cdf truncation points
differ. -/
theorem c1_export_matches_generate (shape scale : ℝ) (n : ℕ)
    (hs : 0 < shape) (hc : 0 < scale) (hn : 2 ≤ n) :
    export_curve_data shape scale ExportType.pdf n =
      ⟨(generate_weibull_curve shape scale n CurveType.pdf).1,
        some (generate_weibull_curve shape scale n CurveType.pdf).2, none⟩ ∧
    export_curve_data shape scale ExportType.cdf n =
      ⟨(generate_weibull_curve shape scale n CurveType.cdf).1, none,
        some (generate_weibull_curve shape scale n CurveType.cdf).2⟩ ∧
    export_curve_data shape scale ExportType.both n =
      ⟨(generate_weibull_curve shape scale n CurveType.pdf).1,
        some (generate_weibull_curve shape scale n CurveType.pdf).2,
        some (generate_weibull_curve shape scale n CurveType.cdf).2⟩ ∧
    (∀ i : ℕ, i < n →
      (generate_weibull_curve shape scale n CurveType.pdf).2.getD i 0 =
        weibull_pdf ((generate_weibull_curve shape scale n CurveType.pdf).1.getD i 0)
          shape scale ∧
      (generate_weibull_curve shape scale n CurveType.cdf).2.getD i 0 =
        weibull_cdf ((generate_weibull_curve shape scale n CurveType.cdf).1.getD i 0)
          shape scale) := by
  refine ⟨rfl, rfl, rfl, fun i hi => ⟨?_, ?_⟩⟩
  · rw [generate_snd_getD shape scale n CurveType.pdf i hi 0,
      generate_fst_getD shape scale n CurveType.pdf i hi 0]
    rfl
  · rw [generate_snd_getD shape scale n CurveType.cdf i hi 0,
      generate_fst_getD shape scale n CurveType.cdf i hi 0]
    rfl

/-- Witness for the amended C1 at shape = 1, scale = 1/100, n = 2. -/
theorem c1_export_matches_generate_witness :
    export_curve_data 1 (1 / 100) ExportType.cdf 2 =
      ⟨(generate_weibull_curve 1 (1 / 100) 2 CurveType.cdf).1, none,
        some (generate_weibull_curve 1 (1 / 100) 2 CurveType.cdf).2⟩ ∧
    (generate_weibull_curve 1 (1 / 100) 2 CurveType.cdf).2.getD 1 0 =
      weibull_cdf ((generate_weibull_curve 1 (1 / 100) 2 CurveType.cdf).1.getD 1 0)
        1 (1 / 100) := by
  obtain ⟨_, h2, _, h4⟩ :=
    c1_export_matches_generate 1 (1 / 100) 2 (by norm_num) (by norm_num) (by norm_num)
  exact ⟨h2, (h4 1 (by norm_num)).2⟩

/-- Claim C1, counterexample. At shape = 1, scale = 1/100, num_points = 2, the
`both` export pairs `X_Value[1] = 1/10` (the PDF truncation point, where the
bisection collapses to the right bound) with `Cumulative_Probability[1] =
0.9999` (the CDF evaluated at the CDF curve's own last grid point
`log 10000 / 100 ≈ 0.0921`), while `weibull_cdf(X_Value[1], 1, 1/100) =
1 - exp(-10) ≈ 0.9999546 ≠ 0.9999`: the claimed row identity
`Cumulative_Probability[i] = weibull_cdf(X_Value[i])` fails at row 1. -/
theorem c1_export_both_counterexample :
    (export_curve_data 1 (1 / 100) ExportType.both 2).xValues.getD 1 0 = 1 / 10 ∧
    ((export_curve_data 1 (1 / 100) ExportType.both 2).cdfColumn.getD []).getD 1 0 = 0.9999 ∧
    ((export_curve_data 1 (1 / 100) ExportType.both 2).cdfColumn.getD []).getD 1 0 ≠
      weibull_cdf ((export_curve_data 1 (1 / 100) ExportType.both 2).xValues.getD 1 0)
        1 (1 / 100) := by
  have hx : (export_curve_data 1 (1 / 100) ExportType.both 2).xValues.getD 1 0 = 1 / 10 := by
    show (generate_weibull_curve 1 (1 / 100) 2 CurveType.pdf).1.getD 1 0 = 1 / 10
    rw [generate_fst_getD 1 (1 / 100) 2 CurveType.pdf 1 (by norm_num) 0]
    show find_truncation_point 1 (1 / 100) CurveType.pdf * _ / _ = 1 / 10
    unfold find_truncation_point
    rw [c1_pdf_truncation]
    norm_num
  have hcdf : ((export_curve_data 1 (1 / 100) ExportType.both 2).cdfColumn.getD []).getD 1 0
      = 0.9999 := by
    show (generate_weibull_curve 1 (1 / 100) 2 CurveType.cdf).2.getD 1 0 = 0.9999
    rw [generate_snd_getD 1 (1 / 100) 2 CurveType.cdf 1 (by norm_num) 0]
    show weibull_cdf (find_truncation_point 1 (1 / 100) CurveType.cdf * _ / _) 1 (1 / 100)
      = 0.9999
    rw [c1_cdf_truncation,
      show Real.log 10000 / 100 * ((1 : ℕ) : ℝ) / ((2 : ℕ) - (1 : ℝ)) =
        Real.log 10000 / 100 from by norm_num]
    exact c1_cdf_value
  refine ⟨hx, hcdf, ?_⟩
  rw [hx, hcdf]
  exact ne_of_lt c1_cdf_at_pdf_x

/-- Claim C4. For every input of three x-values with targets
[0.25, 0.5, 0.75], if the least-squares solver cannot converge within its
iteration budget (SciPy raises `RuntimeError`), then
`fit_weibull_to_points` returns the sentinel `(None, None)` rather than
raising, and no partial or approximate parameter estimate is returned on
that failure: whatever pair comes back is `(none, none)`. -/
theorem c4_nonconvergence_sentinel (cf : CurveFitFun) (x1 x2 x3 : ℝ) (msg : String)
    (hcf : cf weibull_cdf_fit [x1, x2, x3] [0.25, 0.5, 0.75]
      (2, listMean [x1, x2, x3]) ((0.1, 0.1), (50, 100)) = .runtimeError msg) :
    fit_weibull_to_points cf [x1, x2, x3] [0.25, 0.5, 0.75] = .ok (none, none) ∧
    (∀ a b : Option ℝ,
      fit_weibull_to_points cf [x1, x2, x3] [0.25, 0.5, 0.75] = .ok (a, b) →
      a = none ∧ b = none) := by
  have h : fit_weibull_to_points cf [x1, x2, x3] [0.25, 0.5, 0.75] = .ok (none, none) := by
    unfold fit_weibull_to_points
    rw [hcf]
  refine ⟨h, fun a b hab => ?_⟩
  rw [h] at hab
  have h2 : (none, none) = ((a, b) : Option ℝ × Option ℝ) := by
    exact Except.ok.inj hab
  exact ⟨(congrArg Prod.fst h2).symm, (congrArg Prod.snd h2).symm⟩

/-- Witness for C4 with an always-non-convergent solver oracle. -/
theorem c4_nonconvergence_sentinel_witness :
    fit_weibull_to_points cfNonConvergent [1, 2, 3] [0.25, 0.5, 0.75] = .ok (none, none) :=
  (c4_nonconvergence_sentinel cfNonConvergent 1 2 3 _ rfl).1

/-- Claim C5. For every calibration triple with `x1 > x2` or `x2 > x3`
(non-ascending ages), `point_fitting_interface` rejects the input with the
age-order validation error before any optimizer call is made — the outcome
does not depend on the `curve_fit` oracle at all — and this rejection is
distinct from the fitting-failure outcome. -/
theorem c5_reject_nonascending (cf : CurveFitFun) (x1 x2 x3 : ℝ)
    (h : x2 < x1 ∨ x3 < x2) :
    point_fitting_interface cf x1 x2 x3 = PFOutcome.rejectedAges ∧
    (∀ cf2 : CurveFitFun,
      point_fitting_interface cf2 x1 x2 x3 = point_fitting_interface cf x1 x2 x3) ∧
    PFOutcome.rejectedAges ≠ PFOutcome.fitFailed := by
  have hno : ¬ (x1 ≤ x2 ∧ x2 ≤ x3) := by
    rcases h with h | h
    · exact fun hc => absurd hc.1 (not_le.mpr h)
    · exact fun hc => absurd hc.2 (not_le.mpr h)
  have hr : ∀ cf2 : CurveFitFun, point_fitting_interface cf2 x1 x2 x3 =
      PFOutcome.rejectedAges := by
    intro cf2
    unfold point_fitting_interface
    rw [if_pos hno]
  refine ⟨hr cf, fun cf2 => by rw [hr cf2, hr cf], fun hne => PFOutcome.noConfusion hne⟩

/-- Witness for C5: the concrete scenario `fit_points([3,2,1], ...)` is
rejected before fitting, even with an always-convergent oracle. -/
theorem c5_reject_nonascending_witness :
    point_fitting_interface cfAlwaysOk 3 2 1 = PFOutcome.rejectedAges :=
  (c5_reject_nonascending cfAlwaysOk 3 2 1 (Or.inl (by norm_num))).1

/-- Claim C3. `fit_weibull_mle` fails exactly when one of the four conditions
holds — fewer than 2 lifetimes, some non-positive lifetime, optimizer
non-convergence, or non-finite optimized parameters — and each of the four
failures carries its own distinct error.  On success it returns the
optimizer's parameters, which passed the finiteness check and — because
the bounded optimizer stays inside the passed bounds
`[(0.1, 50), (0.1, 2*max)]` (the `hopt` hypothesis) — are strictly
positive.  The `Except` result carries no parameters on any error path. -/
theorem c3_mle_error_paths (opt : MinimizeFun) (perc : PercentileFun) (lifetimes : List ℝ)
    (hopt : 0.1 ≤ (mleOptCall opt perc lifetimes).x.1 ∧
      (mleOptCall opt perc lifetimes).x.1 ≤ 50 ∧
      0.1 ≤ (mleOptCall opt perc lifetimes).x.2 ∧
      (mleOptCall opt perc lifetimes).x.2 ≤ listMax lifetimes * 2) :
    (lifetimes.length < 2 →
      fit_weibull_mle opt perc lifetimes = .error .tooFewPoints) ∧
    (¬ lifetimes.length < 2 → (∃ t ∈ lifetimes, t ≤ 0) →
      fit_weibull_mle opt perc lifetimes = .error .nonPositiveLifetime) ∧
    (¬ lifetimes.length < 2 → ¬ (∃ t ∈ lifetimes, t ≤ 0) →
      (mleOptCall opt perc lifetimes).success = false →
      fit_weibull_mle opt perc lifetimes =
        .error (.optimizationFailed (mleOptCall opt perc lifetimes).message)) ∧
    (¬ lifetimes.length < 2 → ¬ (∃ t ∈ lifetimes, t ≤ 0) →
      (mleOptCall opt perc lifetimes).success = true →
      (mleOptCall opt perc lifetimes).isFin = false →
      fit_weibull_mle opt perc lifetimes = .error .invalidParameters) ∧
    (¬ lifetimes.length < 2 → ¬ (∃ t ∈ lifetimes, t ≤ 0) →
      (mleOptCall opt perc lifetimes).success = true →
      (mleOptCall opt perc lifetimes).isFin = true →
      fit_weibull_mle opt perc lifetimes = .ok (mleOptCall opt perc lifetimes).x) ∧
    ((∃ e, fit_weibull_mle opt perc lifetimes = .error e) ↔
      (lifetimes.length < 2 ∨ (∃ t ∈ lifetimes, t ≤ 0) ∨
        (mleOptCall opt perc lifetimes).success = false ∨
        (mleOptCall opt perc lifetimes).isFin = false)) ∧
    (∀ k l : ℝ, fit_weibull_mle opt perc lifetimes = .ok (k, l) →
      0 < k ∧ 0 < l ∧ (mleOptCall opt perc lifetimes).isFin = true) ∧
    List.Pairwise (· ≠ ·)
      [MLEError.tooFewPoints, MLEError.nonPositiveLifetime,
        MLEError.optimizationFailed (mleOptCall opt perc lifetimes).message,
        MLEError.invalidParameters] := by
  have e1 : lifetimes.length < 2 →
      fit_weibull_mle opt perc lifetimes = .error .tooFewPoints := fun h1 => by
    unfold fit_weibull_mle
    rw [if_pos h1]
  have e2 : ¬ lifetimes.length < 2 → (∃ t ∈ lifetimes, t ≤ 0) →
      fit_weibull_mle opt perc lifetimes = .error .nonPositiveLifetime := fun h1 h2 => by
    unfold fit_weibull_mle
    rw [if_neg h1, if_pos h2]
  have e3 : ¬ lifetimes.length < 2 → ¬ (∃ t ∈ lifetimes, t ≤ 0) →
      (mleOptCall opt perc lifetimes).success = false →
      fit_weibull_mle opt perc lifetimes =
        .error (.optimizationFailed (mleOptCall opt perc lifetimes).message) :=
      fun h1 h2 h3 => by
    unfold fit_weibull_mle
    rw [if_neg h1, if_neg h2]
    show (if (mleOptCall opt perc lifetimes).success = false
        then (Except.error (MLEError.optimizationFailed
          (mleOptCall opt perc lifetimes).message) : Except MLEError (ℝ × ℝ))
        else if (mleOptCall opt perc lifetimes).isFin = false
          then .error .invalidParameters
          else .ok (mleOptCall opt perc lifetimes).x) = _
    rw [if_pos h3]
  have e4 : ¬ lifetimes.length < 2 → ¬ (∃ t ∈ lifetimes, t ≤ 0) →
      (mleOptCall opt perc lifetimes).success = true →
      (mleOptCall opt perc lifetimes).isFin = false →
      fit_weibull_mle opt perc lifetimes = .error .invalidParameters := fun h1 h2 h3 h4 => by
    unfold fit_weibull_mle
    rw [if_neg h1, if_neg h2]
    show (if (mleOptCall opt perc lifetimes).success = false
        then (Except.error (MLEError.optimizationFailed
          (mleOptCall opt perc lifetimes).message) : Except MLEError (ℝ × ℝ))
        else if (mleOptCall opt perc lifetimes).isFin = false
          then .error .invalidParameters
          else .ok (mleOptCall opt perc lifetimes).x) = _
    rw [if_neg (by rw [h3]; simp), if_pos h4]
  have e5 : ¬ lifetimes.length < 2 → ¬ (∃ t ∈ lifetimes, t ≤ 0) →
      (mleOptCall opt perc lifetimes).success = true →
      (mleOptCall opt perc lifetimes).isFin = true →
      fit_weibull_mle opt perc lifetimes = .ok (mleOptCall opt perc lifetimes).x :=
      fun h1 h2 h3 h4 => by
    unfold fit_weibull_mle
    rw [if_neg h1, if_neg h2]
    show (if (mleOptCall opt perc lifetimes).success = false
        then (Except.error (MLEError.optimizationFailed
          (mleOptCall opt perc lifetimes).message) : Except MLEError (ℝ × ℝ))
        else if (mleOptCall opt perc lifetimes).isFin = false
          then .error .invalidParameters
          else .ok (mleOptCall opt perc lifetimes).x) = _
    rw [if_neg (by rw [h3]; simp), if_neg (by rw [h4]; simp)]
  refine ⟨e1, e2, e3, e4, e5, ?_, ?_, ?_⟩
  · constructor
    · rintro ⟨e, he⟩
      by_cases h1 : lifetimes.length < 2
      · exact Or.inl h1
      by_cases h2 : ∃ t ∈ lifetimes, t ≤ 0
      · exact Or.inr (Or.inl h2)
      rcases Bool.eq_false_or_eq_true (mleOptCall opt perc lifetimes).success with h3 | h3
      · rcases Bool.eq_false_or_eq_true (mleOptCall opt perc lifetimes).isFin with h4 | h4
        · rw [e5 h1 h2 h3 h4] at he
          exact Except.noConfusion he
        · exact Or.inr (Or.inr (Or.inr h4))
      · exact Or.inr (Or.inr (Or.inl h3))
    · rintro (h1 | h2 | h3 | h4)
      · exact ⟨_, e1 h1⟩
      · by_cases h1 : lifetimes.length < 2
        · exact ⟨_, e1 h1⟩
        · exact ⟨_, e2 h1 h2⟩
      · by_cases h1 : lifetimes.length < 2
        · exact ⟨_, e1 h1⟩
        by_cases h2 : ∃ t ∈ lifetimes, t ≤ 0
        · exact ⟨_, e2 h1 h2⟩
        · exact ⟨_, e3 h1 h2 h3⟩
      · by_cases h1 : lifetimes.length < 2
        · exact ⟨_, e1 h1⟩
        by_cases h2 : ∃ t ∈ lifetimes, t ≤ 0
        · exact ⟨_, e2 h1 h2⟩
        rcases Bool.eq_false_or_eq_true (mleOptCall opt perc lifetimes).success with h3 | h3
        · exact ⟨_, e4 h1 h2 h3 h4⟩
        · exact ⟨_, e3 h1 h2 h3⟩
  · intro k l hkl
    by_cases h1 : lifetimes.length < 2
    · rw [e1 h1] at hkl
      exact Except.noConfusion hkl
    by_cases h2 : ∃ t ∈ lifetimes, t ≤ 0
    · rw [e2 h1 h2] at hkl
      exact Except.noConfusion hkl
    rcases Bool.eq_false_or_eq_true (mleOptCall opt perc lifetimes).success with h3 | h3
    · rcases Bool.eq_false_or_eq_true (mleOptCall opt perc lifetimes).isFin with h4 | h4
      · rw [e5 h1 h2 h3 h4] at hkl
        have hx : (mleOptCall opt perc lifetimes).x = (k, l) := Except.ok.inj hkl
        obtain ⟨b1, _, b3, _⟩ := hopt
        rw [hx] at b1 b3
        exact ⟨by simp only at b1; linarith, by simp only at b3; linarith, h4⟩
      · rw [e4 h1 h2 h3 h4] at hkl
        exact Except.noConfusion hkl
    · rw [e3 h1 h2 h3] at hkl
      exact Except.noConfusion hkl
  · simp

/-- Witness for C3 with an always-successful in-bounds optimizer on the
sample `[1, 2]`. -/
theorem c3_mle_error_paths_witness :
    fit_weibull_mle optAlwaysOk percConst [1, 2] = .ok (2, 3) ∧
    (0 : ℝ) < 2 ∧ (0 : ℝ) < 3 := by
  obtain ⟨_, _, _, _, hsucc, _, hok, _⟩ := c3_mle_error_paths optAlwaysOk percConst [1, 2]
    (by refine ⟨?_, ?_, ?_, ?_⟩ <;> norm_num [mleOptCall, optAlwaysOk, listMax])
  have hfit := hsucc (by simp)
    (by rintro ⟨t, ht, hle⟩
        fin_cases ht <;> norm_num at hle)
    rfl rfl
  obtain ⟨hk, hl, _⟩ := hok 2 3 hfit
  exact ⟨hfit, hk, hl⟩

/-- Claim C6. For positive percentiles `p25 ≤ p75` of a lifetime sample, the
MLE initial shape guess equals `ln(ln 4) / ln(p75/p25)` clamped to
`[0.5, 5.0]` (it always lies in that interval, and agrees with the raw
formula whenever the formula lies inside it), the initial scale guess
equals `p50 / (ln 2) ^ (1/k0)` with `k0` the clamped shape guess, and in
the degenerate case `p75 = p25` the shape guess is the clamp boundary
`5.0` — the clamped image of the IEEE `+inf` produced by dividing the
positive numerator by zero — rather than a division-by-zero failure. -/
theorem c6_initial_guesses (p25 p50 p75 : ℝ) (h25 : 0 < p25) (hle : p25 ≤ p75) :
    (0.5 ≤ shape_guess p25 p75 ∧ shape_guess p25 p75 ≤ 5) ∧
    (p25 < p75 → shape_guess p25 p75 =
      max 0.5 (min 5.0 (Real.log (Real.log 4) / Real.log (p75 / p25)))) ∧
    (p75 = p25 → shape_guess p25 p75 = 5) ∧
    (∀ k0 : ℝ, scale_guess p50 k0 = p50 / (Real.log 2) ^ ((1 : ℝ) / k0)) := by
  refine ⟨?_, ?_, ?_, fun k0 => rfl⟩
  · unfold shape_guess
    split_ifs
    · norm_num
    · constructor
      · exact le_max_left _ _
      · exact max_le (by norm_num) (le_trans (min_le_left _ _) (by norm_num))
  · intro hlt
    have hratio : 1 < p75 / p25 := (one_lt_div h25).mpr hlt
    have hlog : 0 < Real.log (p75 / p25) := Real.log_pos hratio
    unfold shape_guess
    rw [if_neg hlog.ne']
  · intro heq
    unfold shape_guess
    rw [if_pos]
    rw [heq, div_self h25.ne', Real.log_one]

/-- Witness for C6 at percentiles (1, 2, 4) and the degenerate (1, 2, 1). -/
theorem c6_initial_guesses_witness :
    shape_guess 1 4 = max 0.5 (min 5.0 (Real.log (Real.log 4) / Real.log (4 / 1))) ∧
    shape_guess 1 1 = 5 ∧
    scale_guess 2 (shape_guess 1 4) = 2 / (Real.log 2) ^ ((1 : ℝ) / shape_guess 1 4) := by
  obtain ⟨_, hb, _, hd⟩ := c6_initial_guesses 1 2 4 (by norm_num) (by norm_num)
  obtain ⟨_, _, hc, _⟩ := c6_initial_guesses 1 2 1 (by norm_num) (by norm_num)
  exact ⟨hb (by norm_num), hc rfl, hd _⟩

/-- Claim C9. `weibull_loglik` is total (a Lean function) and never raises:
it returns `+∞` whenever `shape ≤ 0` or `scale ≤ 0` (the non-finite-value
guard of the source is vacuous in real-number semantics, where the computed
log-likelihood is always a finite real), otherwise it returns the negation
of `n*ln(shape) - n*shape*ln(scale) + (shape-1)*Σ ln(xᵢ) - Σ (xᵢ/scale)^shape`
with each lifetime first clamped below by `1e-10` before logarithms are
taken; and it never produces `-∞`. -/
theorem c9_loglik_total (shape scale : ℝ) (lifetimes : List ℝ) :
    (shape ≤ 0 ∨ scale ≤ 0 → weibull_loglik (shape, scale) lifetimes = ⊤) ∧
    (0 < shape → 0 < scale →
      weibull_loglik (shape, scale) lifetimes =
        ((-((lifetimes.length : ℝ) * Real.log shape
            - (lifetimes.length : ℝ) * shape * Real.log scale
            + (shape - 1) * ((lifetimes.map (fun t => max t 1e-10)).map Real.log).sum
            - ((lifetimes.map (fun t => max t 1e-10)).map
                (fun t => (t / scale) ^ shape)).sum) : ℝ) : EReal)) ∧
    weibull_loglik (shape, scale) lifetimes ≠ ⊥ := by
  refine ⟨?_, ?_, ?_⟩
  · intro h
    unfold weibull_loglik
    rw [if_pos h]
  · intro hs hc
    unfold weibull_loglik
    rw [if_neg (by push_neg; exact ⟨hs, hc⟩)]
  · unfold weibull_loglik
    split_ifs
    · exact fun h => (top_ne_bot h).elim
    · exact fun h => (EReal.coe_ne_bot _ h).elim

/-- Witness for C9: the guard at (-1, 1) and totality at (1, 1). -/
theorem c9_loglik_total_witness :
    weibull_loglik (-1, 1) [1] = ⊤ ∧ weibull_loglik (1, 1) [2] ≠ ⊥ := by
  obtain ⟨h1, _, _⟩ := c9_loglik_total (-1) 1 [1]
  obtain ⟨_, _, g3⟩ := c9_loglik_total 1 1 [2]
  exact ⟨h1 (Or.inl (by norm_num)), g3⟩

end
